import Mathlib

/-!
Verification of the dynamic-block registry core of `src/dynamic_blocks.py`.

The Python module manages a persistent registry of parametric block
families and placed instances inside a host CAD document.  This file
shallowly embeds its data model and operations:

* JSON values are modelled by an inductive `Json` type; the raw storage
  blob (a string slot in the host document) is modelled by `Blob`, which
  records only what the code observes about the raw string: whether it is
  absent/empty, fails to parse, or parses to a `Json` value.
* Numeric parameter values are modelled as integers (think of fixed-point
  micro-units); `round(x, 6)` is then the identity on values.
* Host GUIDs are modelled as strings, with `""` playing `Guid.Empty`.
* The host document is a record of placed objects, instance definitions,
  the registry string slot, and explicit streams describing host
  behaviour (ids returned for newly created objects, ids whose deletion
  fails).

Python dicts are modelled as association lists in insertion order with
unique keys; `alSet` and `alPop` model item assignment and `dict.pop`.
-/

section AssocListOps

variable {β : Type}

/-- Python dict item assignment `d[k] = v`: replaces the value in place
when the key is present, otherwise appends the pair at the end. -/
def alSet (l : List (String × β)) (k : String) (v : β) : List (String × β) :=
  if (l.lookup k).isSome then
    l.map (fun p => if p.1 = k then (k, v) else p)
  else
    l ++ [(k, v)]

/-- Python `d.pop(k, None)`: removes the entry for `k` when present
(the first one, which is unique for dict-shaped lists). -/
def alPop (l : List (String × β)) (k : String) : List (String × β) :=
  l.eraseP (fun p => p.1 == k)

theorem lookup_nil (k : String) : ([] : List (String × β)).lookup k = none := rfl

theorem lookup_cons (x : String × β) (t : List (String × β)) (k : String) :
    (x :: t).lookup k = if k = x.1 then some x.2 else t.lookup k := by
  obtain ⟨a, b⟩ := x
  simp only [List.lookup]
  by_cases h : k = a
  · simp [h]
  · have : (k == a) = false := beq_false_of_ne h
    simp [this, h]

theorem lookup_map_replace (l : List (String × β)) (k k2 : String) (v : β)
    (hne : k2 ≠ k) :
    (l.map (fun p => if p.1 = k then (k, v) else p)).lookup k2 =
      l.lookup k2 := by
  induction l with
  | nil => rfl
  | cons p t ih =>
      simp only [List.map_cons]
      by_cases hk : p.1 = k
      · rw [if_pos hk, lookup_cons, lookup_cons]
        have h1 : k2 ≠ p.1 := fun he => hne (he.trans hk)
        rw [if_neg hne, if_neg h1]
        exact ih
      · rw [if_neg hk, lookup_cons, lookup_cons]
        by_cases h2 : k2 = p.1
        · rw [if_pos h2, if_pos h2]
        · rw [if_neg h2, if_neg h2]
          exact ih

theorem lookup_append_singleton (l : List (String × β)) (k : String) (v : β)
    (h : l.lookup k = none) : (l ++ [(k, v)]).lookup k = some v := by
  induction l with
  | nil => simp [lookup_cons]
  | cons p t ih =>
      rw [List.cons_append, lookup_cons]
      rw [lookup_cons] at h
      by_cases hk : k = p.1
      · simp [hk] at h
      · simp only [hk, if_false] at h ⊢
        exact ih h

theorem lookup_append_singleton_ne (l : List (String × β)) (k k2 : String)
    (v : β) (hne : k2 ≠ k) : (l ++ [(k, v)]).lookup k2 = l.lookup k2 := by
  induction l with
  | nil => simp [lookup_cons, hne]
  | cons p t ih =>
      rw [List.cons_append, lookup_cons, lookup_cons]
      by_cases hk : k2 = p.1
      · simp [hk]
      · simp only [hk, if_false]
        exact ih

theorem lookup_map_replace_self (l : List (String × β)) (k : String) (v : β)
    (h : (l.lookup k).isSome) :
    (l.map (fun p => if p.1 = k then (k, v) else p)).lookup k = some v := by
  induction l with
  | nil => simp [List.lookup] at h
  | cons p t ih =>
      simp only [List.map_cons]
      by_cases hk : p.1 = k
      · rw [if_pos hk, lookup_cons, if_pos rfl]
      · have hk2 : k ≠ p.1 := fun he => hk he.symm
        rw [if_neg hk, lookup_cons, if_neg hk2]
        rw [lookup_cons, if_neg hk2] at h
        exact ih h

theorem lookup_alSet_self (l : List (String × β)) (k : String) (v : β) :
    (alSet l k v).lookup k = some v := by
  unfold alSet
  by_cases h : (l.lookup k).isSome
  · simp only [h, if_true]
    exact lookup_map_replace_self l k v h
  · rw [Option.not_isSome_iff_eq_none] at h
    simp only [Option.isSome_none, h, Bool.false_eq_true, if_false]
    exact lookup_append_singleton l k v h

theorem lookup_alSet_ne (l : List (String × β)) (k k2 : String) (v : β)
    (hne : k2 ≠ k) : (alSet l k v).lookup k2 = l.lookup k2 := by
  unfold alSet
  by_cases h : (l.lookup k).isSome
  · simp only [h, if_true]
    exact lookup_map_replace l k k2 v hne
  · rw [Option.not_isSome_iff_eq_none] at h
    simp only [Option.isSome_none, h, Bool.false_eq_true, if_false]
    exact lookup_append_singleton_ne l k k2 v hne

theorem lookup_alPop_ne (l : List (String × β)) (k k2 : String)
    (hne : k2 ≠ k) : (alPop l k).lookup k2 = l.lookup k2 := by
  unfold alPop
  induction l with
  | nil => rfl
  | cons p t ih =>
      by_cases hk : p.1 = k
      · rw [List.eraseP_cons_of_pos (by simpa using hk), lookup_cons]
        have : k2 ≠ p.1 := hk ▸ hne
        simp [this]
      · rw [List.eraseP_cons_of_neg (by simpa using hk), lookup_cons,
          lookup_cons]
        by_cases h2 : k2 = p.1
        · simp [h2]
        · simp only [h2, if_false]
          exact ih

theorem lookup_alPop_self (l : List (String × β)) (k : String)
    (hnd : (l.map Prod.fst).Nodup) : (alPop l k).lookup k = none := by
  unfold alPop
  induction l with
  | nil => rfl
  | cons p t ih =>
      rw [List.map_cons, List.nodup_cons] at hnd
      by_cases hk : p.1 = k
      · rw [List.eraseP_cons_of_pos (by simpa using hk)]
        subst hk
        clear ih
        induction t with
        | nil => rfl
        | cons q u ih2 =>
            rw [List.map_cons, List.mem_cons, not_or] at hnd
            rw [List.nodup_cons] at hnd
            rw [lookup_cons]
            have : p.1 ≠ q.1 := hnd.1.1
            simp only [this, if_false]
            exact ih2 ⟨hnd.1.2, hnd.2.2⟩
      · rw [List.eraseP_cons_of_neg (by simpa using hk), lookup_cons]
        by_cases h2 : k = p.1
        · exact absurd h2.symm hk
        · simp only [h2, if_false]
          exact ih hnd.2

theorem alPop_keys_nodup (l : List (String × β)) (k : String)
    (hnd : (l.map Prod.fst).Nodup) : ((alPop l k).map Prod.fst).Nodup :=
  ((List.eraseP_sublist l).map Prod.fst).nodup hnd

theorem alSet_of_absent (l : List (String × β)) (k : String) (v : β)
    (h : l.lookup k = none) : alSet l k v = l ++ [(k, v)] := by
  unfold alSet
  simp [h]

/-- With unique keys, popping key `k` and then filtering is filtering and
then erasing the (unique) entry for `k`. -/
theorem filter_alPop (l : List (String × β)) (k : String)
    (p : String × β → Bool) (hnd : (l.map Prod.fst).Nodup) :
    (alPop l k).filter p = (l.filter p).eraseP (fun q => q.1 == k) := by
  unfold alPop
  induction l with
  | nil => rfl
  | cons a t ih =>
      rw [List.map_cons, List.nodup_cons] at hnd
      by_cases hk : a.1 = k
      · rw [List.eraseP_cons_of_pos (by simpa using hk)]
        by_cases hp : p a
        · rw [List.filter_cons_of_pos hp,
            List.eraseP_cons_of_pos (by simpa using hk)]
        · rw [List.filter_cons_of_neg hp]
          have hnone : ∀ q ∈ t.filter p, ¬(q.1 == k) = true := by
            intro q hq
            have hmem : q.1 ∈ t.map Prod.fst :=
              List.mem_map_of_mem Prod.fst (List.mem_of_mem_filter hq)
            simp only [beq_iff_eq]
            intro he
            exact hnd.1 (by rw [hk, ← he]; exact hmem)
          rw [List.eraseP_of_forall_not hnone]
      · rw [List.eraseP_cons_of_neg (by simpa using hk)]
        by_cases hp : p a
        · rw [List.filter_cons_of_pos hp, List.filter_cons_of_pos hp,
            List.eraseP_cons_of_neg (by simpa using hk), ih hnd.2]
        · rw [List.filter_cons_of_neg hp, List.filter_cons_of_neg hp,
            ih hnd.2]

end AssocListOps

/-- JSON values, as produced by `json.loads` on a well-formed document.
Object fields keep insertion order, mirroring Python dicts. -/
inductive Json where
  | null : Json
  | bool (b : Bool) : Json
  | num (n : Int) : Json
  | str (s : String) : Json
  | arr (xs : List Json) : Json
  | obj (fields : List (String × Json)) : Json

/-- What the registry code observes about the raw storage string:
`empty` is the falsy empty string, `invalid` is a non-empty string on
which `json.loads` raises, and `parsed j` is a non-empty string that
parses to the JSON value `j`. -/
inductive Blob where
  | empty : Blob
  | invalid : Blob
  | parsed (j : Json) : Blob

/-- The empty registry data `{"families": {}, "instances": {}}`. -/
def emptyReg : Json :=
  Json.obj [("families", Json.obj []), ("instances", Json.obj [])]

/-- Python `dict.setdefault k v`: leaves the dict unchanged when the key
is present (whatever its value), otherwise appends `(k, v)` at the end. -/
def setdefaultJ (fields : List (String × Json)) (k : String) (v : Json) :
    List (String × Json) :=
  if (fields.lookup k).isSome then fields else fields ++ [(k, v)]

/-- `DynamicBlockRegistry._load`: reads the raw slot; a missing or empty
string yields the empty registry; otherwise `json.loads` runs inside
`try`, followed by `setdefault` of the two top-level keys.  A parse
failure, or `setdefault` raising on a non-object value, is caught and
yields the empty registry. -/
def registryLoad (slot : Option Blob) : Json :=
  match slot with
  | none => emptyReg
  | some Blob.empty => emptyReg
  | some Blob.invalid => emptyReg
  | some (Blob.parsed j) =>
    match j with
    | Json.obj fields =>
        Json.obj (setdefaultJ (setdefaultJ fields "families" (Json.obj []))
          "instances" (Json.obj []))
    | _ => emptyReg

/-- `DynamicBlockRegistry.save`: `json.dumps(self.data)` written into the
slot.  Dumping a JSON-serializable value produces a non-empty string that
parses back to the same value, i.e. the blob `parsed data`. -/
def registrySaveSlot (data : Json) : Option Blob :=
  some (Blob.parsed data)

theorem lookup_setdefaultJ_self (fields : List (String × Json)) (k : String)
    (v : Json) :
    (setdefaultJ fields k v).lookup k = some ((fields.lookup k).getD v) := by
  unfold setdefaultJ
  cases h : fields.lookup k with
  | none =>
      simp only [h, Option.isSome_none, Bool.false_eq_true, if_false,
        Option.getD_none]
      exact lookup_append_singleton fields k v h
  | some w => simp [h]

theorem lookup_setdefaultJ_ne (fields : List (String × Json)) (k k2 : String)
    (v : Json) (hne : k2 ≠ k) :
    (setdefaultJ fields k v).lookup k2 = fields.lookup k2 := by
  unfold setdefaultJ
  by_cases h : (fields.lookup k).isSome
  · simp [h]
  · rw [Option.not_isSome_iff_eq_none] at h
    simp only [h, Option.isSome_none, Bool.false_eq_true, if_false]
    exact lookup_append_singleton_ne fields k k2 v hne

/-- A family record as stored in the registry under `"families"`:
`{"name": ..., "family_type": ..., "parameters": {...}}`. -/
structure FamilyInfo where
  name : String
  family_type : String
  parameters : List (String × Int)
  deriving DecidableEq

/-- An instance record as stored in the registry under `"instances"`:
`{"family_id": ..., "values": {...}}`. -/
structure InstInfo where
  family_id : String
  values : List (String × Int)
  deriving DecidableEq

/-- The in-memory registry data `self.data`, in the well-formed shape that
`add_family` / `add_instance` always write and that every command relies
on (both top-level keys mapped to objects of the expected record shape). -/
structure RegData where
  families : List (String × FamilyInfo)
  instances : List (String × InstInfo)
  deriving DecidableEq

def FamilyInfo.toJson (f : FamilyInfo) : Json :=
  Json.obj [("name", Json.str f.name),
    ("family_type", Json.str f.family_type),
    ("parameters", Json.obj (f.parameters.map (fun p => (p.1, Json.num p.2))))]

def InstInfo.toJson (i : InstInfo) : Json :=
  Json.obj [("family_id", Json.str i.family_id),
    ("values", Json.obj (i.values.map (fun p => (p.1, Json.num p.2))))]

def RegData.toJson (r : RegData) : Json :=
  Json.obj
    [("families", Json.obj (r.families.map (fun p => (p.1, p.2.toJson)))),
     ("instances", Json.obj (r.instances.map (fun p => (p.1, p.2.toJson))))]

/-- A placed object in the host document.  `isInstance` is the
`Rhino.DocObjects.InstanceObject` kind check; `xform` and `attrs` are
opaque tokens for the object's transform and attributes; `defIdx` is the
index of the instance definition it references. -/
structure PObj where
  isInstance : Bool
  xform : Int
  attrs : Int
  defIdx : Nat
  deriving DecidableEq

/-- The host document.  `objects` maps placed-object GUIDs to objects,
`idefs` is the instance-definition table (a definition is identified by
its index and carries its name), `slot` and `writes` model the
`(STORE_SECTION, STORE_KEY)` string slot and how many times it has been
written, `newIds` is the stream of GUIDs the host hands out for newly
created placed objects (`""` models `Guid.Empty`, i.e. a creation
failure), and `failDeletes` is the set of ids whose deletion fails. -/
structure HostDoc where
  objects : List (String × PObj)
  idefs : List String
  slot : Option Blob
  writes : Nat
  newIds : List String
  failDeletes : List String

/-- `doc.Objects.FindId`. -/
def findId (doc : HostDoc) (id : String) : Option PObj :=
  doc.objects.lookup id

/-- `doc.Objects.Delete` on an object that exists: removes it.  Whether
the call reports success is modelled by `failDeletes` at the call site. -/
def deleteObj (doc : HostDoc) (id : String) : HostDoc :=
  { doc with objects := doc.objects.eraseP (fun p => p.1 == id) }

/-- `doc.Objects.AddInstanceObject(idef_index, xform, attr)`: takes the
next GUID from the host's stream; `""` (`Guid.Empty`) means the host
failed to create the object. -/
def addInstanceObject (doc : HostDoc) (idefIndex : Nat) (xform attrs : Int) :
    String × HostDoc :=
  match doc.newIds with
  | [] => ("", doc)
  | id :: rest =>
      if id = "" then ("", { doc with newIds := rest })
      else
        (id,
          { doc with
            newIds := rest
            objects := doc.objects ++ [(id, ⟨true, xform, attrs, idefIndex⟩)] })

/-- `doc.InstanceDefinitions.Find(name, True)`: index of the first
definition with the given name, if any. -/
def findDef : List String → String → Option Nat
  | [], _ => none
  | n :: rest, nm => if n = nm then some 0 else (findDef rest nm).map (· + 1)

/-- `make_rectangle_geometry`: the closed rectangle polyline through
`(0,0,0), (w,0,0), (w,h,0), (0,h,0), (0,0,0)`, as a one-curve list. -/
def make_rectangle_geometry (width height : Int) :
    List (List (Int × Int × Int)) :=
  [[(0, 0, 0), (width, 0, 0), (width, height, 0), (0, height, 0), (0, 0, 0)]]

/-- `build_geometry`: dispatch on the family type; unknown types raise
`ValueError`, and a missing `Width`/`Height` key raises `KeyError`
(both modelled as `Except.error`). -/
def build_geometry (family_type : String) (values : List (String × Int)) :
    Except String (List (List (Int × Int × Int))) :=
  if family_type = "rectangle" then
    match values.lookup "Width", values.lookup "Height" with
    | some w, some h => Except.ok (make_rectangle_geometry w h)
    | _, _ => Except.error "KeyError"
  else Except.error ("Unsupported family type: " ++ family_type)

/-- Rendering of a numeric value inside `"{}={}".format(k, values[k])`. -/
def pyStr (n : Int) : String := toString n

/-- `definition_name`: `"DB_{family}_{k1=v1_k2=v2_...}"` over the keys in
sorted order. -/
def definition_name (family_name : String) (values : List (String × Int)) :
    String :=
  let payload := String.intercalate "_"
    ((List.insertionSort (fun a b => a ≤ b) (values.map Prod.fst)).map
      (fun k => k ++ "=" ++ pyStr ((values.lookup k).getD 0)))
  "DB_" ++ family_name ++ "_" ++ payload

/-- `ensure_definition`: look the canonical name up in the document's
definition table; on a miss, build the geometry and register a new
definition under that name (the model records the definition by its
name; its index is the handle returned to the caller). -/
def ensure_definition (doc : HostDoc) (family : FamilyInfo)
    (values : List (String × Int)) : Except String (Nat × HostDoc) :=
  match findDef doc.idefs (definition_name family.name values) with
  | some idx => Except.ok (idx, doc)
  | none =>
    match build_geometry family.family_type values with
    | Except.error e => Except.error e
    | Except.ok _ =>
        Except.ok (doc.idefs.length,
          { doc with
            idefs := doc.idefs ++ [definition_name family.name values] })

/-- Result of `replace_instance_geometry`: `failed` is the Python
`return False`, `ok id` is `return str(new_id)`, and `err` is an
uncaught exception propagating out of `ensure_definition`. -/
inductive RepRes where
  | err (msg : String) : RepRes
  | failed : RepRes
  | ok (newId : String) : RepRes
  deriving DecidableEq

/-- `replace_instance_geometry`: resolve the old object, check its kind,
capture transform and attributes, delete it, resolve/build the
definition, create the replacement, and return the new id. -/
def replace_instance_geometry (doc : HostDoc) (instance_id : String)
    (family : FamilyInfo) (values : List (String × Int)) : RepRes × HostDoc :=
  match findId doc instance_id with
  | none => (RepRes.failed, doc)
  | some inst_obj =>
    if !inst_obj.isInstance then (RepRes.failed, doc)
    else
      if instance_id ∈ doc.failDeletes then (RepRes.failed, doc)
      else
        match ensure_definition (deleteObj doc instance_id) family values with
        | Except.error e => (RepRes.err e, deleteObj doc instance_id)
        | Except.ok (idef_index, doc2) =>
          match addInstanceObject doc2 idef_index inst_obj.xform
              inst_obj.attrs with
          | (new_id, doc3) =>
            if new_id = "" then (RepRes.failed, doc3)
            else (RepRes.ok new_id, doc3)

/-- `DynamicBlockRegistry.save` on the structured state: serialize the
whole data into the slot (one more write). -/
def regSave (reg : RegData) (doc : HostDoc) : HostDoc :=
  { doc with slot := some (Blob.parsed reg.toJson), writes := doc.writes + 1 }

/-- `add_family`: store the family record and persist. -/
def add_family (reg : RegData) (doc : HostDoc) (family_id : String)
    (fam : FamilyInfo) : RegData × HostDoc :=
  let reg2 : RegData := { reg with families := alSet reg.families family_id fam }
  (reg2, regSave reg2 doc)

/-- `add_instance`: store the instance record and persist. -/
def add_instance (reg : RegData) (doc : HostDoc) (obj_id family_id : String)
    (values : List (String × Int)) : RegData × HostDoc :=
  let reg2 : RegData :=
    { reg with instances := alSet reg.instances obj_id ⟨family_id, values⟩ }
  (reg2, regSave reg2 doc)

/-- `remove_instance`: `pop(str(obj_id), None)` and persist. -/
def remove_instance (reg : RegData) (doc : HostDoc) (obj_id : String) :
    RegData × HostDoc :=
  let reg2 : RegData := { reg with instances := alPop reg.instances obj_id }
  (reg2, regSave reg2 doc)

/-- Python `str.lower()`, modelled characterwise over the string's
characters. -/
def pyLower (s : String) : String := String.mk (s.data.map Char.toLower)

/-- `find_family_by_name`: first family whose name matches
case-insensitively, as the pair `(family_id, family)`, or `(None, None)`. -/
def find_family_by_name (families : List (String × FamilyInfo))
    (nm : String) : Option String × Option FamilyInfo :=
  match families.find? (fun p => pyLower p.2.name == pyLower nm) with
  | some p => (some p.1, some p.2)
  | none => (none, none)

def get_family (reg : RegData) (family_id : String) : Option FamilyInfo :=
  reg.families.lookup family_id

def get_instance (reg : RegData) (obj_id : String) : Option InstInfo :=
  reg.instances.lookup obj_id

/-- `iter_instances_for_family`, materialized (the sync command wraps the
generator in `list(...)` before mutating). -/
def iter_instances_for_family (reg : RegData) (family_id : String) :
    List (String × InstInfo) :=
  reg.instances.filter (fun p => p.2.family_id == family_id)

/-- `round(x, 6)`: numeric values are modelled in fixed-point micro-units,
on which rounding to six decimal places is the identity. -/
def round6 (x : Int) : Int := x

/-- Python truthiness of the `existing_id` string returned by
`find_family_by_name` (`None` and `""` are falsy). -/
def truthyId : Option String → Bool
  | none => false
  | some s => !(s == "")

/-- Outcome of a command: `ok` is a run reaching its final statement,
`aborted` is an early `return` (cancelled prompt or user-facing message),
`raised` is an uncaught exception. -/
inductive CmdOut where
  | ok : CmdOut
  | aborted : CmdOut
  | raised (msg : String) : CmdOut
  deriving DecidableEq

/-- `cmd_create_rectangle_family`: prompts (name, default width, default
height — `none` is a cancelled prompt), then loads the registry, rejects
a truthy case-insensitive name match, and otherwise stores a new family
under a freshly generated uuid (`newFamilyId`). -/
def cmd_create_rectangle_family (reg : RegData) (doc : HostDoc)
    (nameIn : Option String) (wIn hIn : Option Int) (newFamilyId : String) :
    CmdOut × RegData × HostDoc :=
  match nameIn with
  | none => (CmdOut.aborted, reg, doc)
  | some nm =>
    if nm = "" then (CmdOut.aborted, reg, doc)
    else
      match wIn with
      | none => (CmdOut.aborted, reg, doc)
      | some default_w =>
        match hIn with
        | none => (CmdOut.aborted, reg, doc)
        | some default_h =>
          let found := find_family_by_name reg.families nm
          if truthyId found.1 then (CmdOut.aborted, reg, doc)
          else
            let fam : FamilyInfo :=
              ⟨nm, "rectangle", [("Width", default_w), ("Height", default_h)]⟩
            let rd := add_family reg doc newFamilyId fam
            (CmdOut.ok, rd.1, rd.2)

/-- `cmd_edit_instance_parameters`: pick an instance, look up its
registry record and family, prompt for the new width/height (the prompt
defaults dereference `cur_vals["Width"]` / `cur_vals["Height"]`, raising
`KeyError` when absent), replace the geometry, and on success retire the
old id and register the new one with the new values. -/
def cmd_edit_instance_parameters (reg : RegData) (doc : HostDoc)
    (objPick : Option String) (wIn hIn : Option Int) :
    CmdOut × RegData × HostDoc :=
  match objPick with
  | none => (CmdOut.aborted, reg, doc)
  | some obj_id =>
    match get_instance reg obj_id with
    | none => (CmdOut.aborted, reg, doc)
    | some inst =>
      match get_family reg inst.family_id with
      | none => (CmdOut.aborted, reg, doc)
      | some family =>
        match inst.values.lookup "Width" with
        | none => (CmdOut.raised "KeyError", reg, doc)
        | some _ =>
          match wIn with
          | none => (CmdOut.aborted, reg, doc)
          | some width =>
            match inst.values.lookup "Height" with
            | none => (CmdOut.raised "KeyError", reg, doc)
            | some _ =>
              match hIn with
              | none => (CmdOut.aborted, reg, doc)
              | some height =>
                let new_values :=
                  [("Width", round6 width), ("Height", round6 height)]
                match replace_instance_geometry doc obj_id family new_values with
                | (RepRes.err e, doc2) => (CmdOut.raised e, reg, doc2)
                | (RepRes.failed, doc2) => (CmdOut.aborted, reg, doc2)
                | (RepRes.ok new_id, doc2) =>
                  let rd := remove_instance reg doc2 obj_id
                  let rd2 := add_instance rd.1 rd.2 new_id inst.family_id new_values
                  (CmdOut.ok, rd2.1, rd2.2)

/-- The per-instance loop of `cmd_sync_family_instances`: prune an
instance whose placed object is gone, otherwise replace its geometry
with the instance's own values and, when the host issued a different id,
retire the old registry entry and add one under the new id.  An
exception from the replacement propagates (first component `some msg`). -/
def syncLoop (fam : FamilyInfo) (family_id : String) :
    RegData → HostDoc → List (String × InstInfo) →
      Option String × RegData × HostDoc
  | reg, doc, [] => (none, reg, doc)
  | reg, doc, (obj_id, info) :: rest =>
    match findId doc obj_id with
    | none =>
        let rd := remove_instance reg doc obj_id
        syncLoop fam family_id rd.1 rd.2 rest
    | some _ =>
      match replace_instance_geometry doc obj_id fam info.values with
      | (RepRes.err e, doc2) => (some e, reg, doc2)
      | (RepRes.failed, doc2) => syncLoop fam family_id reg doc2 rest
      | (RepRes.ok new_id, doc2) =>
        if new_id ≠ obj_id then
          let rd := remove_instance reg doc2 obj_id
          let rd2 := add_instance rd.1 rd.2 new_id family_id info.values
          syncLoop fam family_id rd2.1 rd2.2 rest
        else syncLoop fam family_id reg doc2 rest

/-- Number of registry writes performed by the batch loop: one per
pruned instance, two per replacement adopted under a new id (stated for
the write-count claim; follows the loop's own branch structure). -/
def syncBatchWrites (fam : FamilyInfo) (family_id : String) :
    RegData → HostDoc → List (String × InstInfo) → Nat
  | _, _, [] => 0
  | reg, doc, (obj_id, info) :: rest =>
    match findId doc obj_id with
    | none =>
        let rd := remove_instance reg doc obj_id
        1 + syncBatchWrites fam family_id rd.1 rd.2 rest
    | some _ =>
      match replace_instance_geometry doc obj_id fam info.values with
      | (RepRes.err _, _) => 0
      | (RepRes.failed, doc2) => syncBatchWrites fam family_id reg doc2 rest
      | (RepRes.ok new_id, doc2) =>
        if new_id ≠ obj_id then
          let rd := remove_instance reg doc2 obj_id
          let rd2 := add_instance rd.1 rd.2 new_id family_id info.values
          2 + syncBatchWrites fam family_id rd2.1 rd2.2 rest
        else syncBatchWrites fam family_id reg doc2 rest

/-- The in-place mutation `family["parameters"]["Width"] = round(w, 6)`
followed by the same for `"Height"`: the family with its default
parameters updated. -/
def updatedFamily (fam : FamilyInfo) (default_w default_h : Int) :
    FamilyInfo :=
  { fam with parameters :=
      (alSet (alSet fam.parameters "Width" (round6 default_w)) "Height"
        (round6 default_h)) }

/-- Since the family dict obtained from `find_family_by_name` aliases
`reg.data["families"][family_id]`, mutating its parameters updates that
registry entry in place. -/
def famUpdatedReg (reg : RegData) (family_id : String) (fam2 : FamilyInfo) :
    RegData :=
  { reg with families := alSet reg.families family_id fam2 }

theorem famUpdatedReg_instances (reg : RegData) (family_id : String)
    (fam2 : FamilyInfo) :
    (famUpdatedReg reg family_id fam2).instances = reg.instances := rfl

/-- `cmd_sync_family_instances`: pick a family, prompt for new defaults,
update the family's stored defaults in place, materialize its instance
list, run the per-instance loop, and persist once more at the end (the
final `reg.save()`). -/
def cmd_sync_family_instances (reg : RegData) (doc : HostDoc)
    (nameIn : Option String) (wIn hIn : Option Int) :
    CmdOut × RegData × HostDoc :=
  if reg.families.isEmpty then (CmdOut.aborted, reg, doc)
  else
    match nameIn with
    | none => (CmdOut.aborted, reg, doc)
    | some nm =>
      if nm = "" then (CmdOut.aborted, reg, doc)
      else
        match find_family_by_name reg.families nm with
        | (some fid, some fam) =>
          (match fam.parameters.lookup "Width" with
          | none => (CmdOut.raised "KeyError", reg, doc)
          | some _ =>
            match wIn with
            | none => (CmdOut.aborted, reg, doc)
            | some default_w =>
              match fam.parameters.lookup "Height" with
              | none => (CmdOut.raised "KeyError", reg, doc)
              | some _ =>
                match hIn with
                | none => (CmdOut.aborted, reg, doc)
                | some default_h =>
                  match syncLoop (updatedFamily fam default_w default_h)
                      fid
                      (famUpdatedReg reg fid
                        (updatedFamily fam default_w default_h))
                      doc
                      (iter_instances_for_family
                        (famUpdatedReg reg fid
                          (updatedFamily fam default_w default_h)) fid) with
                  | (some e, reg3, doc3) => (CmdOut.raised e, reg3, doc3)
                  | (none, reg3, doc3) => (CmdOut.ok, reg3, regSave reg3 doc3))
        | _ => (CmdOut.aborted, reg, doc)

section MoreAssocLemmas

variable {β : Type}

theorem mem_of_lookup_eq_some (l : List (String × β)) (k : String) (v : β)
    (h : l.lookup k = some v) : (k, v) ∈ l := by
  induction l with
  | nil => simp [List.lookup] at h
  | cons p t ih =>
      rw [lookup_cons] at h
      by_cases hk : k = p.1
      · rw [if_pos hk] at h
        obtain ⟨a, b⟩ := p
        obtain rfl : b = v := Option.some.inj h
        rw [List.mem_cons]
        exact Or.inl (by rw [hk])
      · rw [if_neg hk] at h
        exact List.mem_cons.mpr (Or.inr (ih h))

theorem lookup_eq_some_of_mem (l : List (String × β)) (k : String) (v : β)
    (hnd : (l.map Prod.fst).Nodup) (hmem : (k, v) ∈ l) :
    l.lookup k = some v := by
  induction l with
  | nil => simp at hmem
  | cons p t ih =>
      rw [List.map_cons, List.nodup_cons] at hnd
      rw [List.mem_cons] at hmem
      rw [lookup_cons]
      rcases hmem with he | hm
      · rw [← he]
        simp
      · by_cases hk : k = p.1
        · exfalso
          apply hnd.1
          rw [← hk]
          exact List.mem_map_of_mem Prod.fst hm
        · rw [if_neg hk]
          exact ih hnd.2 hm

theorem lookup_eq_none_iff (l : List (String × β)) (k : String) :
    l.lookup k = none ↔ k ∉ l.map Prod.fst := by
  induction l with
  | nil => simp [List.lookup]
  | cons p t ih =>
      rw [lookup_cons, List.map_cons, List.mem_cons]
      by_cases hk : k = p.1
      · simp [hk]
      · simp only [hk, if_false, ih, false_or]

/-- Looking a key up in either of two permuted dict-shaped lists gives the
same result. -/
theorem lookup_perm (l1 l2 : List (String × β)) (k : String)
    (hnd : (l1.map Prod.fst).Nodup) (hp : l1.Perm l2) :
    l1.lookup k = l2.lookup k := by
  have hnd2 : (l2.map Prod.fst).Nodup := (hp.map Prod.fst).nodup_iff.mp hnd
  cases h : l1.lookup k with
  | some v =>
      exact (lookup_eq_some_of_mem l2 k v hnd2
        (hp.mem_iff.mp (mem_of_lookup_eq_some l1 k v h))).symm
  | none =>
      rw [lookup_eq_none_iff] at h
      rw [eq_comm, lookup_eq_none_iff]
      intro hmem
      exact h ((hp.map Prod.fst).mem_iff.mpr hmem)

theorem alSet_absent_keys_nodup (l : List (String × β)) (k : String) (v : β)
    (h : l.lookup k = none) (hnd : (l.map Prod.fst).Nodup) :
    ((alSet l k v).map Prod.fst).Nodup := by
  rw [alSet_of_absent l k v h, List.map_append]
  rw [List.nodup_append]
  refine ⟨hnd, by simp, ?_⟩
  intro a ha hb
  simp only [List.map_cons, List.map_nil, List.mem_singleton] at hb
  rw [lookup_eq_none_iff] at h
  exact h (hb ▸ ha)

end MoreAssocLemmas

theorem findDef_append_self (l : List String) (nm : String)
    (h : findDef l nm = none) : findDef (l ++ [nm]) nm = some l.length := by
  induction l with
  | nil => simp [findDef]
  | cons a t ih =>
      rw [findDef] at h
      by_cases ha : a = nm
      · rw [if_pos ha] at h
        exact absurd h (by simp)
      · rw [if_neg ha] at h
        rw [List.cons_append, findDef, if_neg ha, ih (Option.map_eq_none.mp h)]
        rfl

/-- Claim C5: loading the registry from absent, empty-string, or
unparseable storage yields the empty registry
`{"families": {}, "instances": {}}`; the parse failure is caught, so the
load is total and nothing escapes to the caller. -/
theorem load_fail_open :
    registryLoad none = emptyReg ∧
    registryLoad (some Blob.empty) = emptyReg ∧
    registryLoad (some Blob.invalid) = emptyReg :=
  ⟨rfl, rfl, rfl⟩

/-- Claim C10: loading a storage blob that parses to a JSON object keeps
the parsed content, fills each of the missing top-level keys `"families"`
and `"instances"` with an empty object, and leaves every other key as it
was; both keys are present in the result. -/
theorem load_fills_missing_keys (fields : List (String × Json)) :
    ∃ fields2,
      registryLoad (some (Blob.parsed (Json.obj fields))) = Json.obj fields2 ∧
      fields2.lookup "families" =
        some ((fields.lookup "families").getD (Json.obj [])) ∧
      fields2.lookup "instances" =
        some ((fields.lookup "instances").getD (Json.obj [])) ∧
      ∀ k, k ≠ "families" → k ≠ "instances" →
        fields2.lookup k = fields.lookup k := by
  refine ⟨setdefaultJ (setdefaultJ fields "families" (Json.obj []))
    "instances" (Json.obj []), rfl, ?_, ?_, ?_⟩
  · rw [lookup_setdefaultJ_ne _ _ _ _ (by decide),
      lookup_setdefaultJ_self]
  · rw [lookup_setdefaultJ_self,
      lookup_setdefaultJ_ne _ _ _ _ (by decide)]
  · intro k hk1 hk2
    rw [lookup_setdefaultJ_ne _ _ _ _ hk2, lookup_setdefaultJ_ne _ _ _ _ hk1]

/-- Witness for C10 at a concrete blob `{"instances": 3}`. -/
theorem load_fills_missing_keys_witness :
    ∃ fields2,
      registryLoad (some (Blob.parsed (Json.obj [("instances", Json.num 3)]))) =
        Json.obj fields2 ∧
      fields2.lookup "families" =
        some (([("instances", Json.num 3)].lookup "families").getD
          (Json.obj [])) ∧
      fields2.lookup "instances" =
        some (([("instances", Json.num 3)].lookup "instances").getD
          (Json.obj [])) ∧
      ∀ k, k ≠ "families" → k ≠ "instances" →
        fields2.lookup k = [("instances", Json.num 3)].lookup k :=
  load_fills_missing_keys [("instances", Json.num 3)]

/-- Claim C6: `save()` followed by a fresh `load()` over the same storage
slot reproduces the registry data exactly, for any data carrying both
top-level mappings (every value of the `Json` model is
JSON-serializable). -/
theorem save_load_round_trip (fields : List (String × Json)) (fam inst : Json)
    (hf : fields.lookup "families" = some fam)
    (hi : fields.lookup "instances" = some inst) :
    registryLoad (registrySaveSlot (Json.obj fields)) = Json.obj fields := by
  unfold registrySaveSlot registryLoad setdefaultJ
  simp [hf, hi]

/-- Witness for C6 at a concrete registry value. -/
theorem save_load_round_trip_witness :
    registryLoad (registrySaveSlot (Json.obj
      [("families", Json.obj [("f1", Json.str "x")]),
       ("instances", Json.obj [])])) =
    Json.obj
      [("families", Json.obj [("f1", Json.str "x")]),
       ("instances", Json.obj [])] :=
  save_load_round_trip _ _ _ rfl rfl

/-- Claim C3: the canonical definition name depends only on the family
name and the key-value pairs of the mapping, not on their order: any two
dict-shaped value lists that are permutations of one another give the
same `definition_name`. -/
theorem definition_name_det (family_name : String)
    (v1 v2 : List (String × Int))
    (hnd : (v1.map Prod.fst).Nodup) (hperm : v1.Perm v2) :
    definition_name family_name v1 = definition_name family_name v2 := by
  unfold definition_name
  have hkeys : (v1.map Prod.fst).Perm (v2.map Prod.fst) := hperm.map Prod.fst
  have hsort :
      List.insertionSort (fun a b => a ≤ b) (v1.map Prod.fst) =
        List.insertionSort (fun a b => a ≤ b) (v2.map Prod.fst) :=
    List.eq_of_perm_of_sorted
      ((List.perm_insertionSort _ _).trans
        (hkeys.trans (List.perm_insertionSort _ _).symm))
      (List.sorted_insertionSort _ _) (List.sorted_insertionSort _ _)
  have hlk : ∀ k, v1.lookup k = v2.lookup k := fun k =>
    lookup_perm v1 v2 k hnd hperm
  rw [hsort]
  simp only [hlk]

/-- Witness for C3: the same two pairs in both orders. -/
theorem definition_name_det_witness :
    definition_name "Panel" [("Width", 1), ("Height", 2)] =
      definition_name "Panel" [("Height", 2), ("Width", 1)] :=
  definition_name_det "Panel" [("Width", 1), ("Height", 2)]
    [("Height", 2), ("Width", 1)] (by decide) (by decide)

/-- Claim C4: `ensure_definition` is idempotent: if a first call returns
handle `idx` and document `doc2`, the second call on `doc2` with the same
family and values returns the same handle and leaves the document
untouched (no geometry rebuilt), and the two calls together created at
most one definition. -/
theorem ensure_definition_idempotent (doc doc2 : HostDoc) (fam : FamilyInfo)
    (values : List (String × Int)) (idx : Nat)
    (h : ensure_definition doc fam values = Except.ok (idx, doc2)) :
    ensure_definition doc2 fam values = Except.ok (idx, doc2) ∧
    doc2.idefs.length ≤ doc.idefs.length + 1 := by
  unfold ensure_definition at h ⊢
  cases hf : findDef doc.idefs (definition_name fam.name values) with
  | some i =>
      rw [hf] at h
      have hpair := Prod.mk.inj (Except.ok.inj h)
      obtain ⟨hidx, hdoc⟩ := hpair
      subst hidx
      subst hdoc
      rw [hf]
      exact ⟨rfl, Nat.le_succ _⟩
  | none =>
      rw [hf] at h
      cases hb : build_geometry fam.family_type values with
      | error e =>
          rw [hb] at h
          exact absurd h (by simp)
      | ok g =>
          rw [hb] at h
          have hpair := Prod.mk.inj (Except.ok.inj h)
          obtain ⟨hidx, hdoc⟩ := hpair
          subst hidx
          subst hdoc
          constructor
          · rw [findDef_append_self doc.idefs _ hf]
          · simp

/-- Witness for C4 on a document that already holds the definition. -/
theorem ensure_definition_idempotent_witness :
    ensure_definition
        ⟨[], [definition_name "Fam" [("Width", 1), ("Height", 2)]],
          none, 0, [], []⟩
        ⟨"Fam", "rectangle", [("Width", 1), ("Height", 2)]⟩
        [("Width", 1), ("Height", 2)] =
      Except.ok (0,
        (⟨[], [definition_name "Fam" [("Width", 1), ("Height", 2)]],
          none, 0, [], []⟩ : HostDoc)) ∧
    (⟨[], [definition_name "Fam" [("Width", 1), ("Height", 2)]],
        none, 0, [], []⟩ : HostDoc).idefs.length ≤
      (⟨[], [definition_name "Fam" [("Width", 1), ("Height", 2)]],
        none, 0, [], []⟩ : HostDoc).idefs.length + 1 :=
  ensure_definition_idempotent _ _ _ _ 0 (by simp [ensure_definition, findDef])

/-- Successful run of `replace_instance_geometry`: the old object is
deleted, the replacement is created with the captured transform and
attributes under the next host id, and that id is returned. -/
theorem replace_instance_geometry_ok (doc : HostDoc) (oid : String)
    (fam : FamilyInfo) (values : List (String × Int)) (ob : PObj)
    (nid : String) (rest : List String)
    (hobj : doc.objects.lookup oid = some ob)
    (hinst : ob.isInstance = true)
    (hdel : oid ∉ doc.failDeletes)
    (htype : fam.family_type = "rectangle")
    (hw : (values.lookup "Width").isSome)
    (hh : (values.lookup "Height").isSome)
    (hids : doc.newIds = nid :: rest)
    (hnid : nid ≠ "") :
    ∃ idefs2 idx,
      replace_instance_geometry doc oid fam values =
        (RepRes.ok nid,
          ⟨doc.objects.eraseP (fun p => p.1 == oid) ++
              [(nid, ⟨true, ob.xform, ob.attrs, idx⟩)],
            idefs2, doc.slot, doc.writes, rest, doc.failDeletes⟩) ∧
      (idefs2 = doc.idefs ∨
        idefs2 = doc.idefs ++ [definition_name fam.name values]) := by
  obtain ⟨w, hw2⟩ := Option.isSome_iff_exists.mp hw
  obtain ⟨h0, hh2⟩ := Option.isSome_iff_exists.mp hh
  cases hf : findDef doc.idefs (definition_name fam.name values) with
  | some i =>
      refine ⟨doc.idefs, i, ?_, Or.inl rfl⟩
      simp [replace_instance_geometry, findId, hobj, hinst, hdel,
        ensure_definition, deleteObj, hf, addInstanceObject, hids, hnid]
  | none =>
      refine ⟨doc.idefs ++ [definition_name fam.name values],
        doc.idefs.length, ?_, Or.inr rfl⟩
      simp [replace_instance_geometry, findId, hobj, hinst, hdel,
        ensure_definition, deleteObj, hf, addInstanceObject, hids, hnid,
        build_geometry, htype, hw2, hh2]

/-- Counterexample to C2: in the partial-failure run (old object deleted,
creation returns the empty identity) `replace_instance_geometry` returns
the very same result value as in an `InstanceNotFound` run — the Python
`False` — so the caller cannot distinguish the two, even though the first
run has destroyed the old object (its object table ends up empty). -/
theorem replacement_lost_not_distinct :
    (replace_instance_geometry
        ⟨[("i1", ⟨true, 0, 0, 0⟩)], [], none, 0, [""], []⟩ "i1"
        ⟨"Fam", "rectangle", [("Width", 1), ("Height", 2)]⟩
        [("Width", 1), ("Height", 2)]).1 =
      (replace_instance_geometry ⟨[], [], none, 0, [], []⟩ "i1"
        ⟨"Fam", "rectangle", [("Width", 1), ("Height", 2)]⟩
        [("Width", 1), ("Height", 2)]).1 ∧
    (replace_instance_geometry
        ⟨[("i1", ⟨true, 0, 0, 0⟩)], [], none, 0, [""], []⟩ "i1"
        ⟨"Fam", "rectangle", [("Width", 1), ("Height", 2)]⟩
        [("Width", 1), ("Height", 2)]).2.objects = [] := by
  constructor
  · rfl
  · rfl

/-- Claim C2 (amended): when the old placed object is successfully
deleted but the host returns an empty identity for the replacement,
`replace_instance_geometry` reports the same generic failure value
(Python `False`) as the other failure cases — there is no distinct
`ReplacementLost` outcome — while the old object really is gone from the
document. -/
theorem replacement_lost_generic_failure (doc : HostDoc) (oid : String)
    (fam : FamilyInfo) (values : List (String × Int)) (ob : PObj)
    (rest : List String)
    (hnd : (doc.objects.map Prod.fst).Nodup)
    (hobj : doc.objects.lookup oid = some ob)
    (hinst : ob.isInstance = true)
    (hdel : oid ∉ doc.failDeletes)
    (htype : fam.family_type = "rectangle")
    (hw : (values.lookup "Width").isSome)
    (hh : (values.lookup "Height").isSome)
    (hids : doc.newIds = "" :: rest) :
    (replace_instance_geometry doc oid fam values).1 = RepRes.failed ∧
    (replace_instance_geometry doc oid fam values).2.objects.lookup oid =
      none := by
  obtain ⟨w, hw2⟩ := Option.isSome_iff_exists.mp hw
  obtain ⟨h0, hh2⟩ := Option.isSome_iff_exists.mp hh
  have hpop : (doc.objects.eraseP (fun p => p.1 == oid)).lookup oid = none :=
    lookup_alPop_self doc.objects oid hnd
  cases hf : findDef doc.idefs (definition_name fam.name values) with
  | some i =>
      constructor <;>
        simp [replace_instance_geometry, findId, hobj, hinst, hdel,
          ensure_definition, deleteObj, hf, addInstanceObject, hids, hpop]
  | none =>
      constructor <;>
        simp [replace_instance_geometry, findId, hobj, hinst, hdel,
          ensure_definition, deleteObj, hf, addInstanceObject, hids,
          build_geometry, htype, hw2, hh2, hpop]

/-- Witness for the amended C2 at a concrete document. -/
theorem replacement_lost_generic_failure_witness :
    (replace_instance_geometry
        ⟨[("i1", ⟨true, 0, 0, 0⟩)], [], none, 0, [""], []⟩ "i1"
        ⟨"Fam", "rectangle", [("Width", 1), ("Height", 2)]⟩
        [("Width", 1), ("Height", 2)]).1 = RepRes.failed ∧
    (replace_instance_geometry
        ⟨[("i1", ⟨true, 0, 0, 0⟩)], [], none, 0, [""], []⟩ "i1"
        ⟨"Fam", "rectangle", [("Width", 1), ("Height", 2)]⟩
        [("Width", 1), ("Height", 2)]).2.objects.lookup "i1" = none :=
  replacement_lost_generic_failure _ _ _ _ ⟨true, 0, 0, 0⟩ []
    (by decide) (by decide) rfl (by decide) rfl (by decide) (by decide) rfl

/-- Claim C1: editing an existing managed instance (all prompts answered,
host deletion succeeding and the host issuing a fresh non-empty id for
the replacement) yields a new id distinct from the old one; afterwards
the old id is gone from the registry's instances mapping and the new id
maps to the same family with the newly entered values. -/
theorem edit_identity_handoff (reg : RegData) (doc : HostDoc)
    (oid : String) (inst : InstInfo) (fam : FamilyInfo) (ob : PObj)
    (nid : String) (rest : List String) (w2 h2 : Int)
    (hndinst : (reg.instances.map Prod.fst).Nodup)
    (hinst : reg.instances.lookup oid = some inst)
    (hfam : reg.families.lookup inst.family_id = some fam)
    (htype : fam.family_type = "rectangle")
    (hv1w : (inst.values.lookup "Width").isSome)
    (hv1h : (inst.values.lookup "Height").isSome)
    (hobj : doc.objects.lookup oid = some ob)
    (hobinst : ob.isInstance = true)
    (hdel : oid ∉ doc.failDeletes)
    (hids : doc.newIds = nid :: rest)
    (hnid : nid ≠ "")
    (hfresh : nid ≠ oid) :
    ∃ reg2 doc2,
      cmd_edit_instance_parameters reg doc (some oid) (some w2) (some h2) =
        (CmdOut.ok, reg2, doc2) ∧
      reg2.instances.lookup oid = none ∧
      reg2.instances.lookup nid =
        some ⟨inst.family_id,
          [("Width", round6 w2), ("Height", round6 h2)]⟩ := by
  obtain ⟨vw, hv1w2⟩ := Option.isSome_iff_exists.mp hv1w
  obtain ⟨vh, hv1h2⟩ := Option.isSome_iff_exists.mp hv1h
  obtain ⟨idefs2, idx, heq, hcases⟩ :=
    replace_instance_geometry_ok doc oid fam
      [("Width", round6 w2), ("Height", round6 h2)] ob nid rest hobj hobinst
      hdel htype (by simp [List.lookup]) (by simp [List.lookup]) hids hnid
  have hcmd : cmd_edit_instance_parameters reg doc (some oid) (some w2)
      (some h2) =
      (CmdOut.ok,
        { reg with instances := (alSet (alPop reg.instances oid) nid
            (⟨inst.family_id,
              [("Width", round6 w2), ("Height", round6 h2)]⟩ : InstInfo)) },
        regSave
          { reg with instances := (alSet (alPop reg.instances oid) nid
              (⟨inst.family_id,
                [("Width", round6 w2), ("Height", round6 h2)]⟩ : InstInfo)) }
          (regSave { reg with instances := (alPop reg.instances oid) }
            (⟨doc.objects.eraseP (fun p => p.1 == oid) ++
                [(nid, ⟨true, ob.xform, ob.attrs, idx⟩)],
              idefs2, doc.slot, doc.writes, rest, doc.failDeletes⟩))) := by
    simp only [cmd_edit_instance_parameters, get_instance, hinst, get_family,
      hfam, hv1w2, hv1h2, heq, remove_instance, add_instance]
  refine ⟨_, _, hcmd, ?_, ?_⟩
  · rw [lookup_alSet_ne _ _ _ _ (fun he => hfresh he.symm)]
    exact lookup_alPop_self reg.instances oid hndinst
  · exact lookup_alSet_self _ _ _

/-- Witness for C1 on a one-family, one-instance registry. -/
theorem edit_identity_handoff_witness :
    ∃ reg2 doc2,
      cmd_edit_instance_parameters
          ⟨[("f1", ⟨"Door", "rectangle", [("Width", 1), ("Height", 2)]⟩)],
            [("i1", ⟨"f1", [("Width", 1), ("Height", 2)]⟩)]⟩
          ⟨[("i1", ⟨true, 5, 7, 0⟩)], [], none, 0, ["i2"], []⟩
          (some "i1") (some 3) (some 4) =
        (CmdOut.ok, reg2, doc2) ∧
      reg2.instances.lookup "i1" = none ∧
      reg2.instances.lookup "i2" =
        some ⟨"f1", [("Width", round6 3), ("Height", round6 4)]⟩ :=
  edit_identity_handoff _ _ "i1" ⟨"f1", [("Width", 1), ("Height", 2)]⟩
    ⟨"Door", "rectangle", [("Width", 1), ("Height", 2)]⟩ ⟨true, 5, 7, 0⟩
    "i2" [] 3 4 (by decide) (by decide) (by decide) rfl (by decide)
    (by decide) (by decide) rfl (by decide) rfl (by decide) (by decide)

/-- Counterexample to C7: the duplicate check tests Python truthiness of
the found family id, so a matching family stored under the empty-string
id slips through — the command does not reject, a second family with the
same name is added, and storage is written once. -/
theorem create_duplicate_not_rejected :
    (cmd_create_rectangle_family
        ⟨[("", ⟨"DoorPanel", "rectangle", [("Width", 1), ("Height", 2)]⟩)],
          []⟩
        ⟨[], [], none, 0, [], []⟩
        (some "DoorPanel") (some 1) (some 2) "u-1").1 = CmdOut.ok ∧
    ((cmd_create_rectangle_family
        ⟨[("", ⟨"DoorPanel", "rectangle", [("Width", 1), ("Height", 2)]⟩)],
          []⟩
        ⟨[], [], none, 0, [], []⟩
        (some "DoorPanel") (some 1) (some 2) "u-1").2.1).families.length =
      2 ∧
    ((cmd_create_rectangle_family
        ⟨[("", ⟨"DoorPanel", "rectangle", [("Width", 1), ("Height", 2)]⟩)],
          []⟩
        ⟨[], [], none, 0, [], []⟩
        (some "DoorPanel") (some 1) (some 2) "u-1").2.2).writes = 1 := by
  refine ⟨?_, ?_, ?_⟩ <;> decide

/-- Claim C7 (amended): on a registry whose family ids are all non-empty
(which the code's uuid generation guarantees), requesting a name that
matches an existing family case-insensitively makes the command abort
and leave the registry and the document — storage slot included —
unchanged. -/
theorem create_duplicate_rejected (reg : RegData) (doc : HostDoc)
    (nm : String) (w h : Int) (u : String)
    (hnm : nm ≠ "")
    (hids : ∀ p ∈ reg.families, p.1 ≠ "")
    (hdup : ∃ p ∈ reg.families, pyLower p.2.name = pyLower nm) :
    cmd_create_rectangle_family reg doc (some nm) (some w) (some h) u =
      (CmdOut.aborted, reg, doc) := by
  obtain ⟨q, hqmem, hqname⟩ := hdup
  have hfind :
      (reg.families.find? (fun p => pyLower p.2.name == pyLower nm)).isSome := by
    rw [List.find?_isSome]
    exact ⟨q, hqmem, by simpa using hqname⟩
  obtain ⟨r, hr⟩ := Option.isSome_iff_exists.mp hfind
  have hrmem := List.mem_of_find?_eq_some hr
  have hrid : r.1 ≠ "" := hids r hrmem
  simp [cmd_create_rectangle_family, hnm, find_family_by_name, hr, truthyId,
    hrid]

/-- Witness for the amended C7: a case-insensitive match is rejected with
nothing changed. -/
theorem create_duplicate_rejected_witness :
    cmd_create_rectangle_family
        ⟨[("f1", ⟨"DoorPanel", "rectangle", [("Width", 1), ("Height", 2)]⟩)],
          []⟩
        ⟨[], [], none, 0, [], []⟩
        (some "doorpanel") (some 3) (some 4) "u-2" =
      (CmdOut.aborted,
        ⟨[("f1", ⟨"DoorPanel", "rectangle", [("Width", 1), ("Height", 2)]⟩)],
          []⟩,
        ⟨[], [], none, 0, [], []⟩) :=
  create_duplicate_rejected _ _ _ 3 4 "u-2" (by decide) (by decide)
    (by decide)

theorem addInstanceObject_writes (doc : HostDoc) (i : Nat) (x a : Int) :
    (addInstanceObject doc i x a).2.writes = doc.writes := by
  unfold addInstanceObject
  cases doc.newIds with
  | nil => rfl
  | cons id0 rest =>
      by_cases h : id0 = ""
      · simp [h]
      · simp [h]

theorem ensure_definition_writes (doc d2 : HostDoc) (fam : FamilyInfo)
    (values : List (String × Int)) (i : Nat)
    (h : ensure_definition doc fam values = Except.ok (i, d2)) :
    d2.writes = doc.writes := by
  unfold ensure_definition at h
  cases hf : findDef doc.idefs (definition_name fam.name values) with
  | some j =>
      rw [hf] at h
      obtain ⟨h1, h2⟩ := Prod.mk.inj (Except.ok.inj h)
      rw [← h2]
  | none =>
      rw [hf] at h
      cases hb : build_geometry fam.family_type values with
      | error e =>
          rw [hb] at h
          exact absurd h (by simp)
      | ok g =>
          rw [hb] at h
          obtain ⟨h1, h2⟩ := Prod.mk.inj (Except.ok.inj h)
          rw [← h2]

/-- `replace_instance_geometry` never touches the registry storage slot:
the write counter is unchanged on every path. -/
theorem replace_instance_geometry_writes (doc : HostDoc) (oid : String)
    (fam : FamilyInfo) (values : List (String × Int)) :
    (replace_instance_geometry doc oid fam values).2.writes = doc.writes := by
  unfold replace_instance_geometry
  cases hfi : findId doc oid with
  | none => rfl
  | some ob =>
      by_cases hbi : ob.isInstance
      · simp only [hbi, Bool.not_true, Bool.false_eq_true, if_false]
        by_cases hd : oid ∈ doc.failDeletes
        · simp [hd]
        · simp only [hd, if_false]
          cases he : ensure_definition (deleteObj doc oid) fam values with
          | error e => simp [deleteObj]
          | ok p =>
              obtain ⟨i, d2⟩ := p
              have hw2 : d2.writes = doc.writes := by
                have h0 :=
                  ensure_definition_writes (deleteObj doc oid) d2 fam values i he
                simpa [deleteObj] using h0
              cases hr : addInstanceObject d2 i ob.xform ob.attrs with
              | mk nid d3 =>
                  have hw3 : d3.writes = d2.writes := by
                    have h1 := addInstanceObject_writes d2 i ob.xform ob.attrs
                    rw [hr] at h1
                    exact h1
                  by_cases hn : nid = ""
                  · simp [hn, hw3, hw2, hr]
                  · simp [hn, hw3, hw2, hr]
      · simp [hbi]

/-- The batch loop's total effect on the write counter is exactly
`syncBatchWrites`: each pruned instance saves once, each replacement
adopted under a new id saves twice, nothing else saves. -/
theorem syncLoop_writes (fam : FamilyInfo) (fid : String)
    (us : List (String × InstInfo)) :
    ∀ (reg : RegData) (doc : HostDoc),
      (syncLoop fam fid reg doc us).2.2.writes =
        doc.writes + syncBatchWrites fam fid reg doc us := by
  induction us with
  | nil =>
      intro reg doc
      simp [syncLoop, syncBatchWrites]
  | cons p rest ih =>
      intro reg doc
      obtain ⟨oid, info⟩ := p
      cases hfi : findId doc oid with
      | none =>
          simp only [syncLoop, syncBatchWrites, hfi]
          rw [ih]
          simp only [remove_instance, regSave]
          omega
      | some ob =>
          cases hr : replace_instance_geometry doc oid fam info.values with
          | mk res d2 =>
              have hw2 : d2.writes = doc.writes := by
                have h0 :=
                  replace_instance_geometry_writes doc oid fam info.values
                rw [hr] at h0
                exact h0
              cases res with
              | err e =>
                  simp only [syncLoop, syncBatchWrites, hfi, hr]
                  omega
              | failed =>
                  simp only [syncLoop, syncBatchWrites, hfi, hr]
                  rw [ih, hw2]
              | ok nid =>
                  by_cases hn : nid ≠ oid
                  · simp only [syncLoop, syncBatchWrites, hfi, hr]
                    rw [if_pos hn, if_pos hn, ih]
                    simp only [remove_instance, add_instance, regSave]
                    omega
                  · simp only [syncLoop, syncBatchWrites, hfi, hr]
                    rw [if_neg hn, if_neg hn, ih, hw2]

/-- Counterexample to C9: a synchronization run whose batch phase prunes
one stale instance writes the storage slot twice — once from the
`remove_instance` save inside the per-instance loop and once from the
final batch save — not exactly once. -/
theorem sync_writes_not_once :
    ((cmd_sync_family_instances
        ⟨[("f1", ⟨"F", "rectangle", [("Width", 1), ("Height", 2)]⟩)],
          [("i1", ⟨"f1", [("Width", 1), ("Height", 2)]⟩)]⟩
        ⟨[], [], none, 0, [], []⟩
        (some "F") (some 1) (some 2)).2.2).writes = 2 := by
  decide

/-- Claim C9 (amended): a synchronization run that reaches its batch
phase and whose loop raises no exception writes the durable slot once at
the end of the whole batch and, in addition, once per registry mutation
during per-instance processing — one write per pruned instance and two
per replacement adopted under a new id, as counted by
`syncBatchWrites` — so the total is that count plus one, and is one only
when the batch phase mutates no registry entry. -/
theorem sync_write_accounting (reg : RegData) (doc : HostDoc)
    (nm fid : String) (fam : FamilyInfo) (wv hv : Int)
    (hfind : find_family_by_name reg.families nm = (some fid, some fam))
    (hnm : nm ≠ "")
    (hfw : (fam.parameters.lookup "Width").isSome)
    (hfh : (fam.parameters.lookup "Height").isSome)
    (hnoerr :
      (syncLoop (updatedFamily fam wv hv) fid
        (famUpdatedReg reg fid (updatedFamily fam wv hv)) doc
        (reg.instances.filter (fun p => p.2.family_id == fid))).1 = none) :
    ∃ reg3 doc3,
      cmd_sync_family_instances reg doc (some nm) (some wv) (some hv) =
        (CmdOut.ok, reg3, doc3) ∧
      doc3.writes = doc.writes +
        syncBatchWrites (updatedFamily fam wv hv) fid
          (famUpdatedReg reg fid (updatedFamily fam wv hv)) doc
          (reg.instances.filter (fun p => p.2.family_id == fid)) + 1 := by
  have hne : reg.families.isEmpty = false := by
    cases hfam0 : reg.families with
    | nil =>
        rw [hfam0] at hfind
        simp [find_family_by_name] at hfind
    | cons a t => rfl
  obtain ⟨pw, hfw2⟩ := Option.isSome_iff_exists.mp hfw
  obtain ⟨ph, hfh2⟩ := Option.isSome_iff_exists.mp hfh
  cases hsl : syncLoop (updatedFamily fam wv hv) fid
      (famUpdatedReg reg fid (updatedFamily fam wv hv)) doc
      (reg.instances.filter (fun p => p.2.family_id == fid)) with
  | mk o q =>
      obtain ⟨reg3, doc3⟩ := q
      rw [hsl] at hnoerr
      subst hnoerr
      refine ⟨reg3, regSave reg3 doc3, ?_, ?_⟩
      · simp only [cmd_sync_family_instances, hne, Bool.false_eq_true,
          if_false, hnm, hfind, hfw2, hfh2, iter_instances_for_family,
          famUpdatedReg_instances]
        rw [hsl]
      · have hacc := syncLoop_writes (updatedFamily fam wv hv) fid
          (reg.instances.filter (fun p => p.2.family_id == fid))
          (famUpdatedReg reg fid (updatedFamily fam wv hv)) doc
        rw [hsl] at hacc
        simp only [regSave]
        simp at hacc
        omega

/-- Witness for the amended C9: one family, one pruned instance — the
loop writes once and the final save once more. -/
theorem sync_write_accounting_witness :
    ∃ reg3 doc3,
      cmd_sync_family_instances
          ⟨[("f1", ⟨"F", "rectangle", [("Width", 1), ("Height", 2)]⟩)],
            [("i1", ⟨"f1", [("Width", 1), ("Height", 2)]⟩)]⟩
          ⟨[], [], none, 0, [], []⟩ (some "F") (some 1) (some 2) =
        (CmdOut.ok, reg3, doc3) ∧
      doc3.writes = (0 : Nat) +
        syncBatchWrites
          (updatedFamily ⟨"F", "rectangle", [("Width", 1), ("Height", 2)]⟩
            1 2) "f1"
          (famUpdatedReg
            ⟨[("f1", ⟨"F", "rectangle", [("Width", 1), ("Height", 2)]⟩)],
              [("i1", ⟨"f1", [("Width", 1), ("Height", 2)]⟩)]⟩ "f1"
            (updatedFamily ⟨"F", "rectangle", [("Width", 1), ("Height", 2)]⟩
              1 2))
          ⟨[], [], none, 0, [], []⟩
          ([("i1",
            (⟨"f1", [("Width", 1), ("Height", 2)]⟩ : InstInfo))].filter
            (fun p => p.2.family_id == "f1")) + 1 :=
  sync_write_accounting _ _ "F" "f1"
    ⟨"F", "rectangle", [("Width", 1), ("Height", 2)]⟩ 1 2 (by decide)
    (by decide) (by decide) (by decide) (by decide)

theorem syncLoop_nil (fam : FamilyInfo) (fid : String) (reg : RegData)
    (doc : HostDoc) : syncLoop fam fid reg doc [] = (none, reg, doc) := rfl

/-- One loop step on an instance whose placed object is gone: the entry
is pruned (with a save) and the loop continues; no geometry action. -/
theorem syncLoop_prune (fam : FamilyInfo) (fid : String) (reg : RegData)
    (doc : HostDoc) (oid : String) (info : InstInfo)
    (rest2 : List (String × InstInfo))
    (h : findId doc oid = none) :
    syncLoop fam fid reg doc ((oid, info) :: rest2) =
      syncLoop fam fid { reg with instances := (alPop reg.instances oid) }
        (regSave { reg with instances := (alPop reg.instances oid) } doc)
        rest2 := by
  simp only [syncLoop, h, remove_instance]

/-- One loop step on an instance whose replacement succeeds under a new
id: the old entry is retired and the new id registered with the same
values (two saves), and the loop continues. -/
theorem syncLoop_replace_adopt (fam : FamilyInfo) (fid : String)
    (reg : RegData) (doc d2 : HostDoc) (oid nid : String) (info : InstInfo)
    (rest2 : List (String × InstInfo))
    (hrep : replace_instance_geometry doc oid fam info.values =
      (RepRes.ok nid, d2))
    (ob : PObj)
    (hfi : findId doc oid = some ob)
    (hn : nid ≠ oid) :
    syncLoop fam fid reg doc ((oid, info) :: rest2) =
      syncLoop fam fid
        { reg with instances := (alSet (alPop reg.instances oid) nid
            (⟨fid, info.values⟩ : InstInfo)) }
        (regSave
          { reg with instances := (alSet (alPop reg.instances oid) nid
              (⟨fid, info.values⟩ : InstInfo)) }
          (regSave { reg with instances := (alPop reg.instances oid) } d2))
        rest2 := by
  simp only [syncLoop, hfi, hrep, remove_instance, add_instance]
  rw [if_pos hn]


/-- Claim C8: synchronizing a family that has exactly two registered
instances, of which exactly one lost its placed object, completes
normally (nothing is raised): the stale entry is pruned with no geometry
action on it, the survivor is regenerated using its own current values
(not the new defaults), and afterwards the family has exactly one
instance entry — the fresh replacement id bound to those same values —
while the only document changes are the survivor's replacement. -/
theorem sync_prunes_and_preserves (reg : RegData) (doc : HostDoc)
    (nm fid : String) (fam : FamilyInfo)
    (mId sId nid : String) (mInfo sInfo : InstInfo) (ob : PObj)
    (rest : List String) (wv hv : Int)
    (hndinst : (reg.instances.map Prod.fst).Nodup)
    (hfind : find_family_by_name reg.families nm = (some fid, some fam))
    (hnm : nm ≠ "")
    (hfw : (fam.parameters.lookup "Width").isSome)
    (hfh : (fam.parameters.lookup "Height").isSome)
    (htype : fam.family_type = "rectangle")
    (horder :
      reg.instances.filter (fun p => p.2.family_id == fid) =
          [(mId, mInfo), (sId, sInfo)] ∨
      reg.instances.filter (fun p => p.2.family_id == fid) =
          [(sId, sInfo), (mId, mInfo)])
    (hms : mId ≠ sId)
    (hmiss : doc.objects.lookup mId = none)
    (hsobj : doc.objects.lookup sId = some ob)
    (hsinst : ob.isInstance = true)
    (hsdel : sId ∉ doc.failDeletes)
    (hsw : (sInfo.values.lookup "Width").isSome)
    (hsh : (sInfo.values.lookup "Height").isSome)
    (hids : doc.newIds = nid :: rest)
    (hnid : nid ≠ "")
    (hnidm : nid ≠ mId)
    (hnids : nid ≠ sId)
    (hfresh : reg.instances.lookup nid = none) :
    ∃ reg3 doc3,
      cmd_sync_family_instances reg doc (some nm) (some wv) (some hv) =
        (CmdOut.ok, reg3, doc3) ∧
      reg3.instances.filter (fun p => p.2.family_id == fid) =
        [(nid, ⟨fid, sInfo.values⟩)] ∧
      reg3.instances.lookup mId = none ∧
      ∃ po, doc3.objects =
        doc.objects.eraseP (fun p => p.1 == sId) ++ [(nid, po)] := by
  have hne : reg.families.isEmpty = false := by
    cases hfam0 : reg.families with
    | nil =>
        rw [hfam0] at hfind
        simp [find_family_by_name] at hfind
    | cons a t => rfl
  obtain ⟨pw, hfw2⟩ := Option.isSome_iff_exists.mp hfw
  obtain ⟨ph, hfh2⟩ := Option.isSome_iff_exists.mp hfh
  rcases horder with hord | hord
  · -- stale entry first, survivor second
    obtain ⟨idefs2, idx, heqA, hcA⟩ :=
      replace_instance_geometry_ok
        (regSave { (famUpdatedReg reg fid (updatedFamily fam wv hv)) with
            instances := (alPop (famUpdatedReg reg fid
              (updatedFamily fam wv hv)).instances mId) } doc)
        sId (updatedFamily fam wv hv) sInfo.values ob nid rest
        hsobj hsinst hsdel htype hsw hsh hids hnid
    have hcmd : cmd_sync_family_instances reg doc (some nm) (some wv)
        (some hv) =
        (CmdOut.ok,
          (⟨alSet reg.families fid (updatedFamily fam wv hv),
            alSet (alPop (alPop reg.instances mId) sId) nid
              (⟨fid, sInfo.values⟩ : InstInfo)⟩ : RegData),
          (⟨doc.objects.eraseP (fun p => p.1 == sId) ++
              [(nid, ⟨true, ob.xform, ob.attrs, idx⟩)],
            idefs2,
            some (Blob.parsed
              (RegData.toJson
                (⟨alSet reg.families fid (updatedFamily fam wv hv),
                  alSet (alPop (alPop reg.instances mId) sId) nid
                    (⟨fid, sInfo.values⟩ : InstInfo)⟩ : RegData))),
            doc.writes + 1 + 1 + 1 + 1,
            rest, doc.failDeletes⟩ : HostDoc)) := by
      simp only [cmd_sync_family_instances, hne, Bool.false_eq_true,
        if_false, hnm, hfind, hfw2, hfh2, iter_instances_for_family,
        famUpdatedReg_instances]
      rw [hord]
      rw [syncLoop_prune _ _ _ _ _ _ _ hmiss]
      rw [syncLoop_replace_adopt _ _ _ _ _ _ _ _ _ heqA ob hsobj hnids]
      rfl
    refine ⟨_, _, hcmd, ?_, ?_, ?_⟩
    · show (alSet (alPop (alPop reg.instances mId) sId) nid
        (⟨fid, sInfo.values⟩ : InstInfo)).filter
          (fun p => p.2.family_id == fid) = [(nid, ⟨fid, sInfo.values⟩)]
      have hnd1 : ((alPop reg.instances mId).map Prod.fst).Nodup :=
        alPop_keys_nodup _ _ hndinst
      have hfree1 : (alPop (alPop reg.instances mId) sId).lookup nid =
          none := by
        rw [lookup_alPop_ne _ _ _ hnids, lookup_alPop_ne _ _ _ hnidm]
        exact hfresh
      rw [alSet_of_absent _ _ _ hfree1, List.filter_append]
      rw [filter_alPop _ _ _ hnd1, filter_alPop _ _ _ hndinst]
      rw [hord]
      simp
    · show (alSet (alPop (alPop reg.instances mId) sId) nid
        (⟨fid, sInfo.values⟩ : InstInfo)).lookup mId = none
      rw [lookup_alSet_ne _ _ _ _ (fun he => hnidm he.symm)]
      rw [lookup_alPop_ne _ _ _ hms]
      exact lookup_alPop_self _ _ hndinst
    · exact ⟨⟨true, ob.xform, ob.attrs, idx⟩, rfl⟩
  · -- survivor first, stale entry second
    obtain ⟨idefs2, idx, heqB, hcB⟩ :=
      replace_instance_geometry_ok doc sId (updatedFamily fam wv hv)
        sInfo.values ob nid rest hsobj hsinst hsdel htype hsw hsh hids hnid
    have hmA : ∀ (r1 r2 : RegData),
        findId (regSave r1 (regSave r2
          (⟨doc.objects.eraseP (fun p => p.1 == sId) ++
              [(nid, ⟨true, ob.xform, ob.attrs, idx⟩)],
            idefs2, doc.slot, doc.writes, rest, doc.failDeletes⟩ :
            HostDoc))) mId = none := by
      intro r1 r2
      show (doc.objects.eraseP (fun p => p.1 == sId) ++
        [(nid, (⟨true, ob.xform, ob.attrs, idx⟩ : PObj))]).lookup mId = none
      rw [lookup_append_singleton_ne _ _ _ _ (fun he => hnidm he.symm)]
      show (alPop doc.objects sId).lookup mId = none
      rw [lookup_alPop_ne _ _ _ hms]
      exact hmiss
    have hcmd : cmd_sync_family_instances reg doc (some nm) (some wv)
        (some hv) =
        (CmdOut.ok,
          (⟨alSet reg.families fid (updatedFamily fam wv hv),
            alPop (alSet (alPop reg.instances sId) nid
              (⟨fid, sInfo.values⟩ : InstInfo)) mId⟩ : RegData),
          (⟨doc.objects.eraseP (fun p => p.1 == sId) ++
              [(nid, ⟨true, ob.xform, ob.attrs, idx⟩)],
            idefs2,
            some (Blob.parsed
              (RegData.toJson
                (⟨alSet reg.families fid (updatedFamily fam wv hv),
                  alPop (alSet (alPop reg.instances sId) nid
                    (⟨fid, sInfo.values⟩ : InstInfo)) mId⟩ : RegData))),
            doc.writes + 1 + 1 + 1 + 1,
            rest, doc.failDeletes⟩ : HostDoc)) := by
      simp only [cmd_sync_family_instances, hne, Bool.false_eq_true,
        if_false, hnm, hfind, hfw2, hfh2, iter_instances_for_family,
        famUpdatedReg_instances]
      rw [hord]
      rw [syncLoop_replace_adopt _ _ _ _ _ _ _ _ _ heqB ob hsobj hnids]
      rw [syncLoop_prune _ _ _ _ _ _ _ (hmA _ _)]
      rfl
    refine ⟨_, _, hcmd, ?_, ?_, ?_⟩
    · show (alPop (alSet (alPop reg.instances sId) nid
        (⟨fid, sInfo.values⟩ : InstInfo)) mId).filter
          (fun p => p.2.family_id == fid) = [(nid, ⟨fid, sInfo.values⟩)]
      have hndpop : ((alPop reg.instances sId).map Prod.fst).Nodup :=
        alPop_keys_nodup _ _ hndinst
      have hfree1 : (alPop reg.instances sId).lookup nid = none := by
        rw [lookup_alPop_ne _ _ _ hnids]
        exact hfresh
      have hndset : ((alSet (alPop reg.instances sId) nid
          (⟨fid, sInfo.values⟩ : InstInfo)).map Prod.fst).Nodup :=
        alSet_absent_keys_nodup _ _ _ hfree1 hndpop
      rw [filter_alPop _ _ _ hndset]
      rw [alSet_of_absent _ _ _ hfree1, List.filter_append]
      rw [filter_alPop _ _ _ hndinst, hord]
      simp
    · show (alPop (alSet (alPop reg.instances sId) nid
        (⟨fid, sInfo.values⟩ : InstInfo)) mId).lookup mId = none
      have hndpop : ((alPop reg.instances sId).map Prod.fst).Nodup :=
        alPop_keys_nodup _ _ hndinst
      have hfree1 : (alPop reg.instances sId).lookup nid = none := by
        rw [lookup_alPop_ne _ _ _ hnids]
        exact hfresh
      exact lookup_alPop_self _ _
        (alSet_absent_keys_nodup _ _ _ hfree1 hndpop)
    · exact ⟨⟨true, ob.xform, ob.attrs, idx⟩, rfl⟩

/-- Witness for C8: family "F" with two instances, "i1" externally
deleted, "i2" surviving with its own values; the host issues "i3". -/
theorem sync_prunes_and_preserves_witness :
    ∃ reg3 doc3,
      cmd_sync_family_instances
          ⟨[("f1", ⟨"F", "rectangle", [("Width", 1), ("Height", 2)]⟩)],
            [("i1", ⟨"f1", [("Width", 3), ("Height", 4)]⟩),
             ("i2", ⟨"f1", [("Width", 5), ("Height", 6)]⟩)]⟩
          ⟨[("i2", ⟨true, 9, 8, 0⟩)], [], none, 0, ["i3"], []⟩
          (some "F") (some 10) (some 20) =
        (CmdOut.ok, reg3, doc3) ∧
      reg3.instances.filter (fun p => p.2.family_id == "f1") =
        [("i3", ⟨"f1", [("Width", 5), ("Height", 6)]⟩)] ∧
      reg3.instances.lookup "i1" = none ∧
      ∃ po, doc3.objects =
        ([("i2", (⟨true, 9, 8, 0⟩ : PObj))].eraseP (fun p => p.1 == "i2")) ++
          [("i3", po)] :=
  sync_prunes_and_preserves _ _ "F" "f1"
    ⟨"F", "rectangle", [("Width", 1), ("Height", 2)]⟩
    "i1" "i2" "i3" ⟨"f1", [("Width", 3), ("Height", 4)]⟩
    ⟨"f1", [("Width", 5), ("Height", 6)]⟩ ⟨true, 9, 8, 0⟩ [] 10 20
    (by decide) (by decide) (by decide) (by decide) (by decide) rfl
    (Or.inl (by decide)) (by decide) (by decide) (by decide) rfl
    (by decide) (by decide) (by decide) rfl (by decide) (by decide)
    (by decide) (by decide)
